import Mathlib

set_option linter.unusedVariables false

/-!
Verification development for the a-share MCP server repository.

The Python modules under `src/` are shallowly embedded: pure helpers become
Lean functions, dataframe-consuming code is modelled over an explicit
`DataFrame` structure (list of column names plus rows of string cells), and
Python exception flow becomes `Except PyError`.  External data providers
(akshare, baostock) are parameters of the embedded functions.
-/

namespace AShareMCP

/-- Python exception values crossing the boundaries we model.  The repository
classifies provider failures as `NoDataFoundError`, `LoginError`,
`DataSourceError` (module `data_source_interface`, re-exported by
`etf_data_source_interface`), plus builtin `ValueError` and a catch-all for
any other `Exception`. -/
inductive PyError where
  | noDataFound (m : String)
  | loginError (m : String)
  | dataSourceError (m : String)
  | valueError (m : String)
  | other (m : String)
deriving DecidableEq

/-- `str(e)` / `f"{e}"` on an exception: its message text. -/
def PyError.msg : PyError → String
  | .noDataFound m => m
  | .loginError m => m
  | .dataSourceError m => m
  | .valueError m => m
  | .other m => m

/-- A pandas DataFrame, modelled as column names plus rows of string cells. -/
structure DataFrame where
  cols : List String
  rows : List (List String)
deriving DecidableEq

/-- `df.empty`: true iff either axis has length 0. -/
def DataFrame.emptyB (df : DataFrame) : Bool :=
  df.rows.isEmpty || df.cols.isEmpty

/-- Value of row `r` at column `c` of `df` (missing cells read as `""`;
the embedded functions only read columns they have checked for). -/
def DataFrame.cellv (df : DataFrame) (c : String) (r : List String) : String :=
  r.getD (df.cols.indexOf c) ""

/-- Row 0 of `df` (`df.iloc[0]`). -/
def DataFrame.row0 (df : DataFrame) : List String :=
  df.rows.headD []

/-! ### Python string ordering (lexicographic on code points)

Mathlib's `LinearOrder String` compares code points lexicographically,
exactly as CPython compares `str` values; Python's `a <= b` coincides with
`a ≤ b` in that total order. -/

/-- Executable lexicographic strict order on character lists (the order in
which CPython compares `str` values, code point by code point). -/
def lexLt : List Char → List Char → Bool
  | [], [] => false
  | [], _ :: _ => true
  | _ :: _, [] => false
  | a :: as, b :: bs =>
    if a < b then true else if b < a then false else lexLt as bs

/-- Python `a < b` on strings, as a `Bool`. -/
def strLt (a b : String) : Bool := lexLt a.data b.data

/-- Python `a <= b` on strings, as a `Bool` (total order: not `b < a`). -/
def strLe (a b : String) : Bool := !(lexLt b.data a.data)

theorem lexLt_iff_lt : ∀ (a b : List Char), lexLt a b = true ↔ a < b := by
  intro a
  induction a with
  | nil =>
    intro b
    cases b with
    | nil =>
      refine iff_of_false (by simp [lexLt]) ?_
      intro h
      cases h
    | cons y ys => exact iff_of_true rfl List.Lex.nil
  | cons x xs ih =>
    intro b
    cases b with
    | nil =>
      refine iff_of_false (by simp [lexLt]) ?_
      intro h
      cases h
    | cons y ys =>
      simp only [lexLt]
      by_cases hxy : x < y
      · rw [if_pos hxy]
        exact iff_of_true rfl (List.Lex.rel hxy)
      · rw [if_neg hxy]
        by_cases hyx : y < x
        · rw [if_pos hyx]
          refine iff_of_false (by simp) ?_
          intro h
          cases h with
          | cons h' => exact absurd hyx (lt_irrefl x)
          | rel h' => exact hxy h'
        · rw [if_neg hyx]
          have hxey : x = y := le_antisymm (le_of_not_lt hyx) (le_of_not_lt hxy)
          subst hxey
          constructor
          · intro h
            exact List.Lex.cons ((ih ys).mp h)
          · intro h
            cases h with
            | cons h' => exact (ih ys).mpr h'
            | rel h' => exact absurd h' (lt_irrefl x)
  
theorem strLt_iff {a b : String} : strLt a b = true ↔ a < b := by
  rw [String.lt_iff_toList_lt]
  exact lexLt_iff_lt a.data b.data

theorem strLe_iff {a b : String} : strLe a b = true ↔ a ≤ b := by
  show (!(strLt b a)) = true ↔ a ≤ b
  rcases Bool.eq_false_or_eq_true (strLt b a) with h | h
  · rw [h]
    exact iff_of_false (by simp) (not_le.mpr (strLt_iff.mp h))
  · rw [h]
    refine iff_of_true rfl (not_lt.mp ?_)
    intro hc
    rw [strLt_iff.mpr hc] at h
    exact absurd h (by simp)

theorem strLe_refl (a : String) : strLe a a = true := strLe_iff.mpr le_rfl

theorem strLe_trans {a b c : String} (h₁ : strLe a b = true)
    (h₂ : strLe b c = true) : strLe a c = true :=
  strLe_iff.mpr (le_trans (strLe_iff.mp h₁) (strLe_iff.mp h₂))

theorem strLe_total (a b : String) : strLe a b = true ∨ strLe b a = true := by
  rcases le_total a b with h | h
  · exact Or.inl (strLe_iff.mpr h)
  · exact Or.inr (strLe_iff.mpr h)

theorem strLe_of_strLt {a b : String} (h : strLt a b = true) : strLe a b = true :=
  strLe_iff.mpr (le_of_lt (strLt_iff.mp h))

theorem strLe_strLt_trans {a b c : String} (h₁ : strLe a b = true)
    (h₂ : strLt b c = true) : strLe a c = true :=
  strLe_iff.mpr (le_of_lt (lt_of_le_of_lt (strLe_iff.mp h₁) (strLt_iff.mp h₂)))

theorem strLt_strLe_trans {a b c : String} (h₁ : strLt a b = true)
    (h₂ : strLe b c = true) : strLt a c = true :=
  strLt_iff.mpr (lt_of_lt_of_le (strLt_iff.mp h₁) (strLe_iff.mp h₂))

theorem strLt_of_not_le {a b : String} (h : strLe a b = false) : strLt b a = true := by
  refine strLt_iff.mpr ?_
  have : ¬ a ≤ b := by
    intro hc
    rw [strLe_iff.mpr hc] at h
    exact absurd h (by simp)
  exact lt_of_not_le this

/-! ### Calendar dates (Python `datetime.date` values and `%Y-%m-%d` text) -/

/-- A naive calendar date. -/
structure Date where
  year : Nat
  month : Nat
  day : Nat
deriving DecidableEq

/-- Gregorian leap year rule (as `calendar.isleap`). -/
def isLeap (y : Nat) : Bool :=
  y % 4 == 0 && (y % 100 != 0 || y % 400 == 0)

/-- Number of days in a month (`calendar.monthrange(y, m)[1]`). -/
def monthLength (y m : Nat) : Nat :=
  if m = 2 then (if isLeap y then 29 else 28)
  else if m = 4 ∨ m = 6 ∨ m = 9 ∨ m = 11 then 30
  else 31

/-- A value representable as a Python `datetime` date (year 1..9999). -/
def Date.Valid (d : Date) : Prop :=
  1 ≤ d.year ∧ d.year ≤ 9999 ∧ 1 ≤ d.month ∧ d.month ≤ 12 ∧
    1 ≤ d.day ∧ d.day ≤ monthLength d.year d.month

instance (d : Date) : Decidable d.Valid := by
  unfold Date.Valid
  infer_instance

/-- Two zero-padded decimal digits (`"%02d"` for values below 100). -/
def pad2 (n : Nat) : List Char :=
  [Nat.digitChar (n / 10 % 10), Nat.digitChar (n % 10)]

/-- Four zero-padded decimal digits (`"%04d"`, CPython's `%Y` for years below 10000). -/
def pad4 (n : Nat) : List Char :=
  [Nat.digitChar (n / 1000 % 10), Nat.digitChar (n / 100 % 10),
   Nat.digitChar (n / 10 % 10), Nat.digitChar (n % 10)]

/-- `d.strftime("%Y-%m-%d")`. -/
def Date.iso (d : Date) : String :=
  String.mk (pad4 d.year ++ '-' :: pad2 d.month ++ '-' :: pad2 d.day)

/-- Numeric value of a decimal digit character. -/
def digitVal (c : Char) : Nat := c.toNat - 48

/-- `datetime.strptime(s, "%Y-%m-%d")` on canonical zero-padded input:
accepts `YYYY-MM-DD` with a representable year/month/day combination. -/
def parseIso (s : String) : Option Date :=
  match s.data with
  | [y1, y2, y3, y4, c1, m1, m2, c2, d1, d2] =>
    if c1 = '-' ∧ c2 = '-' ∧ y1.isDigit ∧ y2.isDigit ∧ y3.isDigit ∧ y4.isDigit ∧
        m1.isDigit ∧ m2.isDigit ∧ d1.isDigit ∧ d2.isDigit then
      let y := digitVal y1 * 1000 + digitVal y2 * 100 + digitVal y3 * 10 + digitVal y4
      let m := digitVal m1 * 10 + digitVal m2
      let dd := digitVal d1 * 10 + digitVal d2
      if 1 ≤ y ∧ 1 ≤ m ∧ m ≤ 12 ∧ 1 ≤ dd ∧ dd ≤ monthLength y m then
        some ⟨y, m, dd⟩
      else none
    else none
  | _ => none

/-- The day after `d` (Gregorian successor). -/
def Date.next (d : Date) : Date :=
  if d.day < monthLength d.year d.month then ⟨d.year, d.month, d.day + 1⟩
  else if d.month < 12 then ⟨d.year, d.month + 1, 1⟩
  else ⟨d.year + 1, 1, 1⟩

/-- The day before `d` (Gregorian predecessor). -/
def Date.prev (d : Date) : Date :=
  if 1 < d.day then ⟨d.year, d.month, d.day - 1⟩
  else if 1 < d.month then ⟨d.year, d.month - 1, monthLength d.year (d.month - 1)⟩
  else ⟨d.year - 1, 12, 31⟩

/-- `d + timedelta(days=n)`. -/
def Date.addDays : Date → Nat → Date
  | d, 0 => d
  | d, n + 1 => (d.next).addDays n

/-- `d - timedelta(days=n)`. -/
def Date.subDays : Date → Nat → Date
  | d, 0 => d
  | d, n + 1 => (d.prev).subDays n

theorem digitChar_isDigit {k : Nat} (h : k < 10) :
    (Nat.digitChar k).isDigit = true := by
  interval_cases k <;> decide

theorem digitVal_digitChar {k : Nat} (h : k < 10) :
    digitVal (Nat.digitChar k) = k := by
  interval_cases k <;> decide

/-- Rendering a representable date to ISO text and parsing it back is the
identity; in particular `Date.iso` output is always accepted by `parseIso`. -/
theorem parseIso_iso (d : Date) (h : d.Valid) : parseIso d.iso = some d := by
  obtain ⟨hy1, hy2, hm1, hm2, hd1, hd2⟩ := h
  have hmle : monthLength d.year d.month ≤ 31 := by
    unfold monthLength
    split
    · split <;> omega
    · split <;> omega
  have hdig : ∀ k : Nat, k % 10 < 10 := fun k => Nat.mod_lt _ (by omega)
  unfold Date.iso parseIso pad4 pad2
  simp only [List.cons_append, List.nil_append]
  rw [if_pos]
  · rw [digitVal_digitChar (hdig _), digitVal_digitChar (hdig _),
      digitVal_digitChar (hdig _), digitVal_digitChar (hdig _),
      digitVal_digitChar (hdig _), digitVal_digitChar (hdig _),
      digitVal_digitChar (hdig _), digitVal_digitChar (hdig _)]
    have ey : d.year / 1000 % 10 * 1000 + d.year / 100 % 10 * 100 +
        d.year / 10 % 10 * 10 + d.year % 10 = d.year := by omega
    have em : d.month / 10 % 10 * 10 + d.month % 10 = d.month := by omega
    have ed : d.day / 10 % 10 * 10 + d.day % 10 = d.day := by omega
    rw [ey, em, ed, if_pos]
    exact ⟨hy1, hm1, hm2, hd1, hd2⟩
  · refine ⟨by trivial, by trivial, ?_, ?_, ?_, ?_, ?_, ?_, ?_, ?_⟩ <;>
      exact digitChar_isDigit (hdig _)

end AShareMCP

namespace AShareMCP

/-! ### `src/tools/date_utils.py` — trading-calendar tools

The provider call `active_data_source.get_trade_dates(start, end)` is a
parameter: it may return a dataframe, return `None`, or raise. -/

/-- Type of the `get_trade_dates` provider operation. -/
def TradeDatesSource := String → String → Except PyError (Option DataFrame)

/-- Loop body of `get_latest_trading_date`: Python
`if dstr <= today and (latest is None or dstr > latest): latest = dstr`. -/
def latestStep (today : String) (acc : Option String) (dstr : String) : Option String :=
  match acc with
  | none => if strLe dstr today then some dstr else none
  | some l => if strLe dstr today && strLt l dstr then some dstr else some l

/-- `get_latest_trading_date` from `src/tools/date_utils.py` (lines 25-58),
with `datetime.now()` passed in as `now`.  A provider exception (including
indexing a `None` result or a missing column) falls to the final handler,
which returns today's date. -/
def get_latest_trading_date (g : TradeDatesSource) (now : Date) : String :=
  match g (Date.mk now.year now.month 1).iso (Date.mk now.year now.month 28).iso with
  | .error _ => now.iso
  | .ok none => now.iso
  | .ok (some df) =>
    if "is_trading_day" ∈ df.cols ∧ "calendar_date" ∈ df.cols then
      match ((df.rows.filter
          (fun r => df.cellv "is_trading_day" r == "1")).map
            (df.cellv "calendar_date")).foldl (latestStep now.iso) none with
      | some l => if l ≠ "" then l else now.iso
      | none => now.iso
    else now.iso

/-- `is_trading_day` from `src/tools/date_utils.py` (lines 143-167). -/
def is_trading_day (g : TradeDatesSource) (date : String) : String :=
  match g date date with
  | .error e => "Error: " ++ e.msg
  | .ok none => "No"
  | .ok (some df) =>
    if df.emptyB then "No"
    else
      let flagCol := if "is_trading_day" ∈ df.cols then "is_trading_day"
        else df.cols.getLastD ""
      if df.cellv flagCol df.row0 == "1" then "Yes" else "No"

/-- Row comparison used to model `DataFrame.sort_values(by=day_col)`. -/
def rowLeKey (key : List String → String) (r s : List String) : Prop :=
  strLe (key r) (key s) = true

instance (key : List String → String) : DecidableRel (rowLeKey key) :=
  fun r s => inferInstanceAs (Decidable (strLe (key r) (key s) = true))

instance (key : List String → String) : IsTrans (List String) (rowLeKey key) :=
  ⟨fun _ _ _ => strLe_trans⟩

instance (key : List String → String) : IsTotal (List String) (rowLeKey key) :=
  ⟨fun _ _ => strLe_total _ _⟩

/-- `previous_trading_day` from `src/tools/date_utils.py` (lines 169-196). -/
def previous_trading_day (g : TradeDatesSource) (date : String) : String :=
  match parseIso date with
  | none => "Error: " ++ (PyError.valueError "time data does not match format %Y-%m-%d").msg
  | some d =>
    match g ((d.subDays 30).iso) date with
    | .error e => "Error: " ++ e.msg
    | .ok none => date
    | .ok (some df) =>
      if df.emptyB then date
      else
        let flagCol := if "is_trading_day" ∈ df.cols then "is_trading_day"
          else df.cols.getLastD ""
        let dayCol := if "calendar_date" ∈ df.cols then "calendar_date"
          else df.cols.headD ""
        match (List.insertionSort (rowLeKey (df.cellv dayCol))
            (df.rows.filter (fun r =>
              df.cellv flagCol r == "1" && strLt (df.cellv dayCol r) date))).getLast? with
        | none => date
        | some r => df.cellv dayCol r

/-- `next_trading_day` from `src/tools/date_utils.py` (lines 198-225). -/
def next_trading_day (g : TradeDatesSource) (date : String) : String :=
  match parseIso date with
  | none => "Error: " ++ (PyError.valueError "time data does not match format %Y-%m-%d").msg
  | some d =>
    match g date ((d.addDays 30).iso) with
    | .error e => "Error: " ++ e.msg
    | .ok none => date
    | .ok (some df) =>
      if df.emptyB then date
      else
        let flagCol := if "is_trading_day" ∈ df.cols then "is_trading_day"
          else df.cols.getLastD ""
        let dayCol := if "calendar_date" ∈ df.cols then "calendar_date"
          else df.cols.headD ""
        match (List.insertionSort (rowLeKey (df.cellv dayCol))
            (df.rows.filter (fun r =>
              df.cellv flagCol r == "1" && strLt date (df.cellv dayCol r)))).head? with
        | none => date
        | some r => df.cellv dayCol r

/-- `get_market_analysis_timeframe` from `src/tools/date_utils.py`
(lines 60-141), with `datetime.now()` passed in as `now`.  Returns the
human label plus the ISO range. -/
def get_market_analysis_timeframe (now : Date) (period : String) : String :=
  let sm : Date × Date :=
    if period = "recent" then
      if now.day < 15 then
        if now.month = 1 then (⟨now.year - 1, 11, 1⟩, ⟨now.year - 1, 12, 1⟩)
        else if now.month = 2 then (⟨now.year, 1, 1⟩, ⟨now.year, 1, 1⟩)
        else (⟨now.year, now.month - 2, 1⟩, ⟨now.year, now.month - 1, 1⟩)
      else
        if now.month = 1 then (⟨now.year - 1, 12, 1⟩, ⟨now.year - 1, 12, 1⟩)
        else (⟨now.year, now.month - 1, 1⟩, ⟨now.year, now.month - 1, 1⟩)
    else if period = "quarter" then
      let s : Date := if now.month ≤ 3 then ⟨now.year - 1, now.month + 9, 1⟩
        else ⟨now.year, now.month - 3, 1⟩
      (s, s)
    else if period = "half_year" then
      let s : Date := if now.month ≤ 6 then ⟨now.year - 1, now.month + 6, 1⟩
        else ⟨now.year, now.month - 6, 1⟩
      let m : Date := if s.month ≤ 9 then ⟨s.year, s.month + 3, 1⟩
        else ⟨s.year + 1, s.month - 9, 1⟩
      (s, m)
    else if period = "year" then
      let s : Date := ⟨now.year - 1, now.month, 1⟩
      let m : Date := if s.month ≤ 6 then ⟨s.year, s.month + 6, 1⟩
        else ⟨s.year + 1, s.month - 6, 1⟩
      (s, m)
    else
      let s : Date := if now.month = 1 then ⟨now.year - 1, 12, 1⟩
        else ⟨now.year, now.month - 1, 1⟩
      (s, s)
  let startD := sm.1
  let middle := sm.2
  let endDay := min (monthLength now.year now.month) now.day
  let endIso := toString now.year ++ "-" ++ String.mk (pad2 now.month) ++ "-" ++
    String.mk (pad2 endDay)
  let startIso := toString startD.year ++ "-" ++ String.mk (pad2 startD.month) ++ "-01"
  let dateRange :=
    if startD.year ≠ now.year then
      toString startD.year ++ "年" ++ toString startD.month ++ "月-" ++
        toString now.year ++ "年" ++ toString now.month ++ "月"
    else if middle.month ≠ startD.month ∧ middle.month ≠ now.month then
      toString startD.year ++ "年" ++ toString startD.month ++ "月-" ++
        toString middle.month ++ "月-" ++ toString now.month ++ "月"
    else if startD.month ≠ now.month then
      toString startD.year ++ "年" ++ toString startD.month ++ "月-" ++
        toString now.month ++ "月"
    else
      toString startD.year ++ "年" ++ toString startD.month ++ "月"
  dateRange ++ " (ISO: " ++ startIso ++ " to " ++ endIso ++ ")"

end AShareMCP

namespace AShareMCP

/-! ### `src/tools/helpers.py` — code normalization -/

/-- The characters Python `str.strip()` removes (ASCII whitespace). -/
def isPySpace (c : Char) : Bool :=
  c = ' ' ∨ c = '\t' ∨ c = '\n' ∨ c = '\r' ∨ c = '\x0b' ∨ c = '\x0c'

/-- Python `str.strip()` on ASCII text. -/
def pyStrip (s : String) : String :=
  String.mk (((s.data.dropWhile isPySpace).reverse.dropWhile isPySpace).reverse)

/-- Exactly six decimal digits (`\d{6}` against ASCII input). -/
def sixDigits (cs : List Char) : Bool :=
  cs.length = 6 && cs.all Char.isDigit

/-- Full match of `(?i)(sh|sz)[.]?(\d{6})`: exchange tag, optional dot,
six digits.  Returns the lowered tag and the digits. -/
def matchTagThenDigits (cs : List Char) : Option (String × String) :=
  match cs with
  | a :: b :: rest =>
    let tag := String.mk [a.toLower, b.toLower]
    if tag = "sh" ∨ tag = "sz" then
      match rest with
      | '.' :: ds => if sixDigits ds then some (tag, String.mk ds) else none
      | ds => if sixDigits ds then some (tag, String.mk ds) else none
    else none
  | _ => none

/-- Full match of `(\d{6})[.]?(?i)(sh|sz)`: six digits, optional dot,
exchange tag.  Returns the digits and the lowered tag. -/
def matchDigitsThenTag (cs : List Char) : Option (String × String) :=
  let ds := cs.take 6
  if sixDigits ds then
    match cs.drop 6 with
    | ['.', a, b] =>
      let tag := String.mk [a.toLower, b.toLower]
      if tag = "sh" ∨ tag = "sz" then some (String.mk ds, tag) else none
    | [a, b] =>
      let tag := String.mk [a.toLower, b.toLower]
      if tag = "sh" ∨ tag = "sz" then some (String.mk ds, tag) else none
    | _ => none
  else none

/-- `normalize_stock_code` from `src/tools/helpers.py` (lines 19-68). -/
def normalize_stock_code (code : String) : String :=
  let raw := pyStrip code
  if raw = "" then "Error: 'code' is required."
  else
    match matchTagThenDigits raw.data with
    | some (ex, num) => ex ++ "." ++ num
    | none =>
      match matchDigitsThenTag raw.data with
      | some (num, ex) => ex ++ "." ++ num
      | none =>
        if sixDigits raw.data then
          let ex := if raw.data.headD ' ' = '6' then "sh" else "sz"
          ex ++ "." ++ raw
        else
          "Error: Unsupported code format. Examples: 'sh.600000', '600000', '000001.SZ'."

end AShareMCP

namespace AShareMCP

/-- C8: on the fixed date 2025-01-10 (day < 15, month January), the
`"recent"` analysis timeframe starts 2024-11-01, ends 2025-01-10 (day
clamped to 10), and carries the label "2024年11月-2025年1月". -/
theorem timeframe_recent_on_20250110 :
    get_market_analysis_timeframe ⟨2025, 1, 10⟩ "recent" =
      "2024年11月-2025年1月 (ISO: 2024-11-01 to 2025-01-10)" ∧
    "2024年11月-2025年1月".data <+:
      (get_market_analysis_timeframe ⟨2025, 1, 10⟩ "recent").data := by
  constructor
  · rfl
  · decide

/-- C9: code normalization maps `"600000"` to `"sh.600000"`, `"000001.SZ"`
to `"sz.000001"`, and rejects `"xx1234"` with an error string beginning
with `"Error:"`. -/
theorem normalize_stock_code_scenarios :
    normalize_stock_code "600000" = "sh.600000" ∧
    normalize_stock_code "000001.SZ" = "sz.000001" ∧
    "Error:".data <+: (normalize_stock_code "xx1234").data := by
  refine ⟨rfl, rfl, ?_⟩
  decide

end AShareMCP

namespace AShareMCP

/-! ### `src/tools/base.py` — the invocation pipeline

`format_table_output` lives in `src/formatting/markdown_formatter.py`
(imported by `base.py`); the pipeline treats it as an opaque callable that
renders or raises, so it is a parameter here, as is the bound data-source
method. -/

/-- The `meta` mapping built by `call_financial_data_tool` (line 55). -/
structure FinMeta where
  code : String
  year : String
  quarter : Int
  dataset : String
deriving DecidableEq

/-- Type of `format_table_output(df, format=..., max_rows=..., meta=...)`. -/
def Renderer := DataFrame → String → Int → FinMeta → Except PyError String

/-- Type of a bound data-source method `(code=..., year=..., quarter=...)`. -/
def FinMethod := String → String → Int → Except PyError DataFrame

/-- Python `str.isdigit()` on ASCII text: nonempty and all digits. -/
def pyIsDigitStr (s : String) : Bool :=
  !s.data.isEmpty && s.data.all Char.isDigit

/-- The exception-to-string mapping of `call_financial_data_tool`
(lines 58-73): each handler returns a short `"Error: ..."` message. -/
def finToolErrorString : PyError → String
  | .noDataFound m => "Error: " ++ m
  | .loginError m => "Error: Could not connect to data source. " ++ m
  | .dataSourceError m => "Error: An error occurred while fetching data. " ++ m
  | .valueError m => "Error: Invalid input parameter. " ++ m
  | .other m => "Error: An unexpected error occurred: " ++ m

/-- `call_financial_data_tool` from `src/tools/base.py` (lines 15-73).
In the source `limit` defaults to `250` and `format` to `"markdown"`
(recorded in `toolDefaultLimits` below). -/
def call_financial_data_tool (fmt : Renderer) (m : FinMethod)
    (tool_name data_type_name code year : String) (quarter : Int)
    (limit : Int) (format : String) : String :=
  if pyIsDigitStr year = false ∨ year.length ≠ 4 then
    "Error: Invalid year '" ++ year ++ "'. Please provide a 4-digit year."
  else if ¬ (1 ≤ quarter ∧ quarter ≤ 4) then
    "Error: Invalid quarter '" ++ toString quarter ++ "'. Must be between 1 and 4."
  else
    match m code year quarter with
    | .error e => finToolErrorString e
    | .ok df =>
      match fmt df format limit ⟨code, year, quarter, data_type_name⟩ with
      | .error e => finToolErrorString e
      | .ok s => s

/-- The source-level default of the `limit` argument of every tool
operation that exposes one: `call_financial_data_tool`,
`call_macro_data_tool`, `call_index_constituent_tool` (`src/tools/base.py`
lines 24, 83, 133), the index tools (`src/tools/indices.py` lines 26, 53,
72, 91, 113, 185) and the market-overview tools
(`src/tools/market_overview.py` lines 25, 64, 102, 132). -/
def toolDefaultLimits : List (String × Int) :=
  [("call_financial_data_tool", 250),
   ("call_macro_data_tool", 250),
   ("call_index_constituent_tool", 250),
   ("get_stock_industry", 250),
   ("get_sz50_stocks", 250),
   ("get_hs300_stocks", 250),
   ("get_zz500_stocks", 250),
   ("get_index_constituents", 250),
   ("get_industry_members", 250),
   ("get_trade_dates", 250),
   ("get_all_stock", 250),
   ("search_stocks", 50),
   ("get_suspensions", 250)]

theorem data_append (a b : String) : (a ++ b).data = a.data ++ b.data := by
  cases a
  cases b
  rfl

theorem data_isPrefix_append {p a : String} (h : p.data <+: a.data)
    (b : String) : p.data <+: (a ++ b).data := by
  rw [data_append]
  exact h.trans (List.prefix_append a.data b.data)

theorem errorPrefix_finToolErrorString (e : PyError) :
    "Error: ".data <+: (finToolErrorString e).data := by
  cases e <;>
    exact data_isPrefix_append (by decide) _

end AShareMCP

namespace AShareMCP

/-- C2: for every input and every behavior of the bound data-source method
and of the renderer, `call_financial_data_tool` returns a string that is
either the renderer's successful output for the fetched dataframe or a
string beginning with `"Error: "`; every raised exception is absorbed. -/
theorem call_financial_data_tool_never_raises (fmt : Renderer) (m : FinMethod)
    (tn dtn code year : String) (quarter limit : Int) (format : String) :
    "Error: ".data <+:
      (call_financial_data_tool fmt m tn dtn code year quarter limit format).data ∨
    ∃ df, m code year quarter = .ok df ∧
      fmt df format limit ⟨code, year, quarter, dtn⟩ =
        .ok (call_financial_data_tool fmt m tn dtn code year quarter limit format) := by
  by_cases hy : pyIsDigitStr year = false ∨ year.length ≠ 4
  · refine Or.inl ?_
    simp only [call_financial_data_tool, if_pos hy]
    exact data_isPrefix_append (data_isPrefix_append (by decide) year) _
  · by_cases hq : 1 ≤ quarter ∧ quarter ≤ 4
    · cases hm : m code year quarter with
      | error e =>
        refine Or.inl ?_
        simp only [call_financial_data_tool, if_neg hy,
          if_neg (not_not_intro hq), hm]
        exact errorPrefix_finToolErrorString e
      | ok df =>
        cases hf : fmt df format limit ⟨code, year, quarter, dtn⟩ with
        | error e =>
          refine Or.inl ?_
          simp only [call_financial_data_tool, if_neg hy,
            if_neg (not_not_intro hq), hm, hf]
          exact errorPrefix_finToolErrorString e
        | ok s =>
          refine Or.inr ⟨df, rfl, ?_⟩
          simp only [call_financial_data_tool, if_neg hy,
            if_neg (not_not_intro hq), hm, hf]
    · refine Or.inl ?_
      simp only [call_financial_data_tool, if_neg hy, if_pos hq]
      exact data_isPrefix_append
        (data_isPrefix_append (by decide) (toString quarter)) _

/-- C3: with a 4-digit numeral year and a quarter in [1,4], the pipeline
consults the bound method at exactly `(code, year, quarter)` (its result
depends on the method only through that application, and a classified
failure there surfaces as the matching error string); with any other
year/quarter shape it returns the corresponding validation error string for
every bound method, so the method is never invoked. -/
theorem call_financial_data_tool_validation (fmt : Renderer) (m m' : FinMethod)
    (tn dtn code year : String) (quarter limit : Int) (format : String) :
    ((pyIsDigitStr year = true ∧ year.length = 4 ∧ 1 ≤ quarter ∧ quarter ≤ 4) →
      (m' code year quarter = m code year quarter →
        call_financial_data_tool fmt m' tn dtn code year quarter limit format =
          call_financial_data_tool fmt m tn dtn code year quarter limit format) ∧
      (∀ e, m code year quarter = .error e →
        call_financial_data_tool fmt m tn dtn code year quarter limit format =
          finToolErrorString e)) ∧
    ((pyIsDigitStr year = false ∨ year.length ≠ 4) →
      call_financial_data_tool fmt m tn dtn code year quarter limit format =
        "Error: Invalid year '" ++ year ++ "'. Please provide a 4-digit year.") ∧
    ((pyIsDigitStr year = true ∧ year.length = 4 ∧ ¬ (1 ≤ quarter ∧ quarter ≤ 4)) →
      call_financial_data_tool fmt m tn dtn code year quarter limit format =
        "Error: Invalid quarter '" ++ toString quarter ++ "'. Must be between 1 and 4.") := by
  refine ⟨?_, ?_, ?_⟩
  · rintro ⟨h1, h2, h3, h4⟩
    have hy : ¬ (pyIsDigitStr year = false ∨ year.length ≠ 4) := by
      simp [h1, h2]
    constructor
    · intro hpt
      simp only [call_financial_data_tool, if_neg hy,
        if_neg (show ¬¬ (1 ≤ quarter ∧ quarter ≤ 4) by simp [h3, h4]), hpt]
    · intro e he
      simp only [call_financial_data_tool, if_neg hy,
        if_neg (show ¬¬ (1 ≤ quarter ∧ quarter ≤ 4) by simp [h3, h4]), he]
  · intro hy
    simp only [call_financial_data_tool, if_pos hy]
  · rintro ⟨h1, h2, hq⟩
    simp only [call_financial_data_tool,
      if_neg (show ¬ (pyIsDigitStr year = false ∨ year.length ≠ 4) by simp [h1, h2]),
      if_pos (show ¬ (1 ≤ quarter ∧ quarter ≤ 4) from hq)]

/-- A sample dataframe for witness instantiations. -/
def sampleDF : DataFrame := ⟨["code", "value"], [["sh.600000", "1"]]⟩

/-- A renderer that always succeeds with a fixed table. -/
def fmtConst : Renderer := fun _ _ _ _ => .ok "| table |"

/-- A renderer that reports the row cap it was handed. -/
def fmtCap : Renderer := fun _ _ maxRows _ => .ok (toString maxRows)

/-- A data-source method that always succeeds. -/
def mOk : FinMethod := fun _ _ _ => .ok sampleDF

/-- A data-source method agreeing with `mOk` except on another code. -/
def mOkElsewhere : FinMethod := fun c _ _ =>
  if c = "sz.000001" then .error (.other "boom") else .ok sampleDF

theorem call_financial_data_tool_validation_witness :
    call_financial_data_tool fmtConst mOkElsewhere "t" "d" "sh.600000" "2023" 2
        250 "markdown" =
      call_financial_data_tool fmtConst mOk "t" "d" "sh.600000" "2023" 2
        250 "markdown" :=
  ((call_financial_data_tool_validation fmtConst mOk mOkElsewhere "t" "d"
    "sh.600000" "2023" 2 250 "markdown").1
    (by refine ⟨by decide, by decide, by decide, by decide⟩)).1 (by rfl)

/-- C7 counterexample: not every tool operation exposing a `limit` argument
defaults it to 250 — `search_stocks` defaults it to 50
(`src/tools/market_overview.py` line 102). -/
theorem limit_default_not_uniform :
    ¬ (∀ p ∈ toolDefaultLimits, p.2 = 250) := by decide

/-- C7 amended: every tool operation exposing a `limit` argument defaults it
to 250 except `search_stocks`, whose default is 50; and on the success path
the pipeline hands `limit` to the renderer as its max-rows cap, returning
the renderer's output unchanged. -/
theorem limit_defaults_and_renderer_cap :
    (∀ p ∈ toolDefaultLimits, p.2 = 250 ∨ (p.1 = "search_stocks" ∧ p.2 = 50)) ∧
    ("search_stocks", (50 : Int)) ∈ toolDefaultLimits ∧
    (∀ (fmt : Renderer) (m : FinMethod) (tn dtn code year : String)
      (quarter limit : Int) (format : String) (df : DataFrame) (s : String),
      pyIsDigitStr year = true → year.length = 4 → 1 ≤ quarter → quarter ≤ 4 →
      m code year quarter = .ok df →
      fmt df format limit ⟨code, year, quarter, dtn⟩ = .ok s →
      call_financial_data_tool fmt m tn dtn code year quarter limit format = s) := by
  refine ⟨by decide, by decide, ?_⟩
  intro fmt m tn dtn code year quarter limit format df s h1 h2 h3 h4 hm hf
  simp only [call_financial_data_tool,
    if_neg (show ¬ (pyIsDigitStr year = false ∨ year.length ≠ 4) by simp [h1, h2]),
    if_neg (show ¬¬ (1 ≤ quarter ∧ quarter ≤ 4) by simp [h3, h4]), hm, hf]

theorem limit_defaults_and_renderer_cap_witness :
    call_financial_data_tool fmtCap mOk "t" "d" "sh.600000" "2023" 2 250
      "markdown" = "250" :=
  limit_defaults_and_renderer_cap.2.2 fmtCap mOk "t" "d" "sh.600000" "2023" 2
    250 "markdown" sampleDF "250" (by decide) (by decide) (by decide) (by decide)
    (by rfl) (by rfl)

end AShareMCP

namespace AShareMCP

/-! ### `src/akshare_etf_data_source.py` — AKShare-backed ETF provider

The akshare library functions the class calls are opaque external services,
bundled as an oracle structure. -/

/-- The akshare calls made by `AKShareETFDataSource`.
`fund_etf_hist_em` takes `(symbol, period, start_date, end_date)`. -/
structure AKShare where
  fund_etf_spot_em : Except PyError DataFrame
  fund_etf_hist_em : String → String → String → String → Except PyError DataFrame
  fund_etf_holdings_em : String → Except PyError DataFrame

/-- `df[df['代码'] == etf_code]`: a `KeyError` when the column is missing,
otherwise the rows whose cell equals the code. -/
def dfFilterEq (df : DataFrame) (c v : String) : Except PyError DataFrame :=
  if c ∈ df.cols then
    .ok ⟨df.cols, df.rows.filter (fun r => df.cellv c r == v)⟩
  else .error (.other "KeyError")

/-- Exception mapping of `get_etf_basic_info` (lines 30-34): re-raise
`NoDataFoundError`, wrap anything else as `DataSourceError`. -/
def wrapBasicInfoErr : PyError → PyError
  | .noDataFound m => .noDataFound m
  | e => .dataSourceError ("获取ETF基本信息失败: " ++ e.msg)

/-- Exception mapping of `get_etf_historical_data` (lines 77-83): re-raise
`NoDataFoundError` and `ValueError`, wrap anything else. -/
def wrapHistErr : PyError → PyError
  | .noDataFound m => .noDataFound m
  | .valueError m => .valueError m
  | e => .dataSourceError ("获取ETF历史数据失败: " ++ e.msg)

/-- Exception mapping of `get_etf_holdings` (lines 98-102). -/
def wrapHoldingsErr : PyError → PyError
  | .noDataFound m => .noDataFound m
  | e => .dataSourceError ("获取ETF持仓明细失败: " ++ e.msg)

/-- `AKShareETFDataSource.get_etf_basic_info` (lines 16-34). -/
def get_etf_basic_info (ak : AKShare) (etf_code : String) : Except PyError DataFrame :=
  match ak.fund_etf_spot_em with
  | .error e => .error (wrapBasicInfoErr e)
  | .ok etf_info =>
    match dfFilterEq etf_info "代码" etf_code with
    | .error e => .error (wrapBasicInfoErr e)
    | .ok etf_data =>
      if etf_data.emptyB then
        .error (.noDataFound ("未找到ETF代码 " ++ etf_code ++ " 的基本信息"))
      else .ok etf_data

/-- `AKShareETFDataSource.get_etf_historical_data` (lines 36-83); in the
source `frequency` defaults to `"d"`. -/
def get_etf_historical_data (ak : AKShare) (etf_code start_date end_date : String)
    (frequency : String) : Except PyError DataFrame :=
  let fetched : Except PyError DataFrame :=
    if frequency = "d" then ak.fund_etf_hist_em etf_code "daily" start_date end_date
    else if frequency = "w" then ak.fund_etf_hist_em etf_code "weekly" start_date end_date
    else if frequency = "m" then ak.fund_etf_hist_em etf_code "monthly" start_date end_date
    else .error (.valueError ("不支持的频率: " ++ frequency))
  match fetched with
  | .error e => .error (wrapHistErr e)
  | .ok data =>
    if data.emptyB then
      .error (.noDataFound ("未找到ETF " ++ etf_code ++ " 的历史数据"))
    else .ok data

/-- `AKShareETFDataSource.get_etf_holdings` (lines 85-102); in the source
`date` defaults to `None` and is unused. -/
def get_etf_holdings (ak : AKShare) (etf_code : String) (date : Option String) :
    Except PyError DataFrame :=
  match ak.fund_etf_holdings_em etf_code with
  | .error e => .error (wrapHoldingsErr e)
  | .ok holdings =>
    if holdings.emptyB then
      .error (.noDataFound ("未找到ETF " ++ etf_code ++ " 的持仓明细"))
    else .ok holdings

/-- The `analysis_data` dictionary built by `get_etf_analysis` (lines 173-177). -/
structure ETFAnalysis where
  basic_info : DataFrame
  recent_performance : DataFrame
  holdings : DataFrame
deriving DecidableEq

/-- `AKShareETFDataSource.get_etf_analysis` (lines 157-184), with
`datetime.now()` passed in as `now`: basic info, then the trailing
30-calendar-day history, then holdings; the outer handler wraps any raised
exception in a `DataSourceError`. -/
def get_etf_analysis (ak : AKShare) (now : Date) (etf_code : String) :
    Except PyError ETFAnalysis :=
  match get_etf_basic_info ak etf_code with
  | .error e => .error (.dataSourceError ("获取ETF分析数据失败: " ++ e.msg))
  | .ok basic_info =>
    match get_etf_historical_data ak etf_code ((now.subDays 30).iso) now.iso "d" with
    | .error e => .error (.dataSourceError ("获取ETF分析数据失败: " ++ e.msg))
    | .ok recent =>
      match get_etf_holdings ak etf_code none with
      | .error e => .error (.dataSourceError ("获取ETF分析数据失败: " ++ e.msg))
      | .ok holdings => .ok ⟨basic_info, recent, holdings⟩

/-- C1: the composite ETF analysis returns the three sub-fetch results as one
bundle only when all three succeed; any sub-fetch failure (including a
`NoDataFound` from the holdings sub-fetch) makes the whole operation fail
with a single `DataSourceError` wrapping the original error's message, so a
partial bundle is never returned. -/
theorem get_etf_analysis_bundle (ak : AKShare) (now : Date) (etf_code : String) :
    (∀ v, get_etf_analysis ak now etf_code = .ok v →
      get_etf_basic_info ak etf_code = .ok v.basic_info ∧
      get_etf_historical_data ak etf_code ((now.subDays 30).iso) now.iso "d" =
        .ok v.recent_performance ∧
      get_etf_holdings ak etf_code none = .ok v.holdings) ∧
    (∀ e, get_etf_analysis ak now etf_code = .error e →
      ∃ e₀, e = .dataSourceError ("获取ETF分析数据失败: " ++ e₀.msg) ∧
        (get_etf_basic_info ak etf_code = .error e₀ ∨
         get_etf_historical_data ak etf_code ((now.subDays 30).iso) now.iso "d" =
           .error e₀ ∨
         get_etf_holdings ak etf_code none = .error e₀)) ∧
    ((( ∃ e, get_etf_basic_info ak etf_code = .error e) ∨
      (∃ e, get_etf_historical_data ak etf_code ((now.subDays 30).iso) now.iso "d" =
        .error e) ∨
      (∃ e, get_etf_holdings ak etf_code none = .error e)) →
      ∃ m, get_etf_analysis ak now etf_code = .error (.dataSourceError m)) := by
  cases hb : get_etf_basic_info ak etf_code with
  | error e =>
    refine ⟨?_, ?_, ?_⟩
    · intro v hv
      simp only [get_etf_analysis, hb] at hv
      exact absurd hv (by simp)
    · intro e' he'
      simp only [get_etf_analysis, hb, Except.error.injEq] at he'
      exact ⟨e, he'.symm, Or.inl rfl⟩
    · intro _
      refine ⟨"获取ETF分析数据失败: " ++ e.msg, ?_⟩
      simp only [get_etf_analysis, hb]
  | ok b =>
    cases hh : get_etf_historical_data ak etf_code ((now.subDays 30).iso) now.iso "d" with
    | error e =>
      refine ⟨?_, ?_, ?_⟩
      · intro v hv
        simp only [get_etf_analysis, hb, hh] at hv
        exact absurd hv (by simp)
      · intro e' he'
        simp only [get_etf_analysis, hb, hh, Except.error.injEq] at he'
        exact ⟨e, he'.symm, Or.inr (Or.inl rfl)⟩
      · intro _
        refine ⟨"获取ETF分析数据失败: " ++ e.msg, ?_⟩
        simp only [get_etf_analysis, hb, hh]
    | ok r =>
      cases hd : get_etf_holdings ak etf_code none with
      | error e =>
        refine ⟨?_, ?_, ?_⟩
        · intro v hv
          simp only [get_etf_analysis, hb, hh, hd] at hv
          exact absurd hv (by simp)
        · intro e' he'
          simp only [get_etf_analysis, hb, hh, hd, Except.error.injEq] at he'
          exact ⟨e, he'.symm, Or.inr (Or.inr rfl)⟩
        · intro _
          refine ⟨"获取ETF分析数据失败: " ++ e.msg, ?_⟩
          simp only [get_etf_analysis, hb, hh, hd]
      | ok hds =>
        refine ⟨?_, ?_, ?_⟩
        · intro v hv
          simp only [get_etf_analysis, hb, hh, hd, Except.ok.injEq] at hv
          subst hv
          exact ⟨rfl, rfl, rfl⟩
        · intro e' he'
          simp only [get_etf_analysis, hb, hh, hd] at he'
          exact absurd he' (by simp)
        · rintro (⟨e, he⟩ | ⟨e, he⟩ | ⟨e, he⟩) <;>
            exact absurd he (by simp)

/-- An oracle whose holdings feed is empty (so the holdings sub-fetch raises
`NoDataFound`) while the other feeds succeed. -/
def akHoldingsMissing : AKShare :=
  ⟨.ok ⟨["代码", "名称"], [["159919", "沪深300ETF"]]⟩,
   fun _ _ _ _ => .ok ⟨["收盘"], [["1.00"]]⟩,
   fun _ => .ok ⟨["股票名称"], []⟩⟩

theorem get_etf_analysis_bundle_witness :
    ∃ m, get_etf_analysis akHoldingsMissing ⟨2025, 1, 10⟩ "159919" =
      .error (.dataSourceError m) :=
  (get_etf_analysis_bundle akHoldingsMissing ⟨2025, 1, 10⟩ "159919").2.2
    (Or.inr (Or.inr ⟨.noDataFound "未找到ETF 159919 的持仓明细", by rfl⟩))

end AShareMCP

namespace AShareMCP

/-! ### `src/tools/etf_analysis.py` — `compare_etfs` -/

/-- Python `str.split(sep)` for a one-character separator:
`"".split(",") == [""]`, empty fields preserved. -/
def pySplit (sep : Char) : List Char → List (List Char)
  | [] => [[]]
  | c :: rest =>
    match pySplit sep rest with
    | [] => [[]]
    | cur :: others =>
      if c = sep then [] :: cur :: others else (c :: cur) :: others

/-- The table row emitted when an ETF's data could not be fetched
(`etf_analysis.py` line 159). -/
def failRowFor (code : String) : String :=
  "| " ++ code ++ " | 数据获取失败 | N/A | N/A | N/A |\n"

/-- The table row emitted from a fetched, non-empty dataframe
(lines 153-157): each column falls back to `'N/A'` when absent. -/
def dataRowFor (code : String) (df : DataFrame) : String :=
  let gv := fun (c : String) => if c ∈ df.cols then df.cellv c df.row0 else "N/A"
  "| " ++ code ++ " | " ++ gv "名称" ++ " | " ++ gv "最新价" ++ " | " ++
    gv "涨跌幅" ++ "% | " ++ gv "成交量" ++ " |\n"

/-- Row choice for one dict entry (lines 151-159). -/
def compareRowFor (code : String) (data : Option DataFrame) : String :=
  match data with
  | some df => if df.emptyB then failRowFor code else dataRowFor code df
  | none => failRowFor code

/-- Python dict assignment `d[k] = v`: overwrite in place, else append. -/
def dictSet (d : List (String × Option DataFrame)) (k : String)
    (v : Option DataFrame) : List (String × Option DataFrame) :=
  if d.any (fun p => p.1 == k) then
    d.map (fun p => if p.1 == k then (k, v) else p)
  else d ++ [(k, v)]

/-- The per-code fetch of `compare_etfs` (lines 138-144): a caught failure
stores `None`, success stores the dataframe. -/
def fetchResult (fetch : String → Except PyError DataFrame) (c : String) :
    Option DataFrame :=
  match fetch c with
  | .ok df => some df
  | .error _ => none

/-- The `etf_data` dict after the fetch loop of `compare_etfs`. -/
def buildETFDict (fetch : String → Except PyError DataFrame)
    (codes : List String) : List (String × Option DataFrame) :=
  codes.foldl (fun d c => dictSet d c (fetchResult fetch c)) []

/-- The report text of `compare_etfs` preceding the per-ETF rows
(lines 133-149). -/
def compareHeader : String :=
  "# ETF比较分析\n\n" ++
  "## 免责声明\n本报告基于公开数据生成，仅供参考，不构成投资建议。\n\n" ++
  "## 基本信息比较\n" ++
  "| ETF代码 | 名称 | 最新价 | 涨跌幅 | 成交量 |\n" ++
  "|---------|------|--------|--------|--------|\n"

/-- The report text of `compare_etfs` following the per-ETF rows
(lines 161-164). -/
def compareFooter : String :=
  "\n## 比较结论\n" ++
  "- 以上数据仅供参考，建议结合具体投资需求进行选择\n" ++
  "- 不同ETF的跟踪指数和投资策略可能存在差异\n" ++
  "- 投资决策应基于个人风险承受能力和投资目标\n"

/-- `compare_etfs` from `src/tools/etf_analysis.py` (lines 114-171), with
`active_etf_data_source.get_etf_basic_info` bound as `fetch`. -/
def compare_etfs (fetch : String → Except PyError DataFrame)
    (etf_codes comparison_type : String) : String :=
  let codes := (pySplit ',' etf_codes.data).map (fun cs => pyStrip (String.mk cs))
  if codes.length < 2 then "错误: 至少需要2个ETF代码进行比较"
  else
    ((buildETFDict fetch codes).foldl
      (fun rep p => rep ++ compareRowFor p.1 p.2) compareHeader) ++ compareFooter

theorem isInfix_of_isPre {a b : List Char} (h : a <+: b) : a <:+: b := by
  obtain ⟨t, ht⟩ := h
  exact ⟨[], t, by simp [ht]⟩

theorem isInfix_data_append_left {a : List Char} {b : String} (h : a <:+: b.data)
    (c : String) : a <:+: (b ++ c).data := by
  obtain ⟨s, t, hst⟩ := h
  exact ⟨s, t ++ c.data, by rw [data_append, ← hst]; simp [List.append_assoc]⟩

theorem foldl_append_acc_isPre {α : Type} (f : α → String) :
    ∀ (l : List α) (acc : String),
      acc.data <+: (l.foldl (fun r x => r ++ f x) acc).data := by
  intro l
  induction l with
  | nil => intro acc; exact List.prefix_rfl
  | cons a as ih =>
    intro acc
    simp only [List.foldl_cons]
    refine List.IsPrefix.trans ?_ (ih (acc ++ f a))
    rw [data_append]
    exact List.prefix_append acc.data (f a).data

theorem foldl_append_mem_infix {α : Type} (f : α → String) {l : List α} {x : α}
    (h : x ∈ l) (acc : String) :
    (f x).data <:+: (l.foldl (fun r y => r ++ f y) acc).data := by
  induction l generalizing acc with
  | nil => cases h
  | cons a as ih =>
    simp only [List.foldl_cons]
    rcases List.mem_cons.mp h with rfl | hx
    · refine List.IsInfix.trans ?_
        (isInfix_of_isPre (foldl_append_acc_isPre f as (acc ++ f x)))
      exact ⟨acc.data, [], by simp [data_append]⟩
    · exact ih hx _

theorem dictSet_value_inv (f : String → Option DataFrame)
    {d : List (String × Option DataFrame)} (hd : ∀ p ∈ d, p.2 = f p.1)
    {k : String} {v : Option DataFrame} (hv : v = f k) :
    ∀ p ∈ dictSet d k v, p.2 = f p.1 := by
  intro p hp
  unfold dictSet at hp
  split at hp
  · obtain ⟨q, hq, hpq⟩ := List.mem_map.mp hp
    by_cases h : (q.1 == k) = true
    · rw [if_pos h] at hpq
      rw [← hpq]
      exact hv
    · rw [if_neg (by simpa using h)] at hpq
      rw [← hpq]
      exact hd q hq
  · rcases List.mem_append.mp hp with h | h
    · exact hd p h
    · have : p = (k, v) := by simpa using h
      rw [this]
      exact hv

theorem dictSet_self_mem (d : List (String × Option DataFrame)) (k : String)
    (v : Option DataFrame) : (k, v) ∈ dictSet d k v := by
  unfold dictSet
  split
  · next hany =>
    obtain ⟨q, hq, hqk⟩ := List.any_eq_true.mp hany
    exact List.mem_map.mpr ⟨q, hq, by rw [if_pos hqk]⟩
  · exact List.mem_append.mpr (Or.inr (by simp))

theorem dictSet_mem_keep {d : List (String × Option DataFrame)} {k : String}
    {v : Option DataFrame} {p : String × Option DataFrame} (hp : p ∈ d)
    (hne : (p.1 == k) = false) : p ∈ dictSet d k v := by
  unfold dictSet
  split
  · exact List.mem_map.mpr ⟨p, hp, by rw [if_neg (by simp [hne])]⟩
  · exact List.mem_append.mpr (Or.inl hp)

theorem buildETFDict_aux_inv (fetch : String → Except PyError DataFrame) :
    ∀ (codes : List String) (d : List (String × Option DataFrame)),
      (∀ p ∈ d, p.2 = fetchResult fetch p.1) →
      ∀ p ∈ codes.foldl (fun d c => dictSet d c (fetchResult fetch c)) d,
        p.2 = fetchResult fetch p.1 := by
  intro codes
  induction codes with
  | nil => intro d hd; simpa using hd
  | cons c cs ih =>
    intro d hd
    simp only [List.foldl_cons]
    exact ih _ (dictSet_value_inv _ hd rfl)

theorem buildETFDict_aux_key (fetch : String → Except PyError DataFrame) :
    ∀ (codes : List String) (d : List (String × Option DataFrame)) (c : String),
      (c ∈ codes ∨ ∃ w, (c, w) ∈ d) →
      ∃ w, (c, w) ∈ codes.foldl (fun d c => dictSet d c (fetchResult fetch c)) d := by
  intro codes
  induction codes with
  | nil =>
    intro d c h
    rcases h with h | h
    · cases h
    · simpa using h
  | cons a as ih =>
    intro d c h
    simp only [List.foldl_cons]
    apply ih
    rcases h with h | ⟨w, hw⟩
    · rcases List.mem_cons.mp h with rfl | hx
      · exact Or.inr ⟨fetchResult fetch c, dictSet_self_mem d c _⟩
      · exact Or.inl hx
    · by_cases hca : (c == a) = true
      · have : c = a := by simpa using hca
        subst this
        exact Or.inr ⟨fetchResult fetch c, dictSet_self_mem d c _⟩
      · exact Or.inr ⟨w, dictSet_mem_keep hw (by simpa using hca)⟩

theorem buildETFDict_lookup (fetch : String → Except PyError DataFrame)
    (codes : List String) (c : String) (hc : c ∈ codes) :
    (c, fetchResult fetch c) ∈ buildETFDict fetch codes := by
  obtain ⟨w, hw⟩ := buildETFDict_aux_key fetch codes [] c (Or.inl hc)
  have hv := buildETFDict_aux_inv fetch codes [] (by simp) (c, w) hw
  simp only at hv
  rw [← hv]
  exact hw

end AShareMCP

namespace AShareMCP

/-- C10: with at least two comma-separated ETF codes, a per-code basic-info
fetch failure does not abort `compare_etfs`: the report is still produced
(it begins with the report title, not an error), containing the
`数据获取失败` row for every code whose fetch raised and the data row for
every code whose fetch succeeded; with fewer than two codes it returns the
fixed error string without consulting the provider.  The hypothesis that a
successful fetch is non-empty is the capability contract of
`get_etf_basic_info`, which raises `NoDataFound` instead of returning an
empty dataframe. -/
theorem compare_etfs_partial_failure (fetch : String → Except PyError DataFrame)
    (etf_codes ctype : String)
    (hcontract : ∀ c df, fetch c = .ok df → df.emptyB = false) :
    (((pySplit ',' etf_codes.data).map (fun cs => pyStrip (String.mk cs))).length < 2 →
      compare_etfs fetch etf_codes ctype = "错误: 至少需要2个ETF代码进行比较" ∧
      ∀ fetch', compare_etfs fetch' etf_codes ctype = compare_etfs fetch etf_codes ctype) ∧
    (2 ≤ ((pySplit ',' etf_codes.data).map (fun cs => pyStrip (String.mk cs))).length →
      "# ETF比较分析".data <+: (compare_etfs fetch etf_codes ctype).data ∧
      ∀ c ∈ (pySplit ',' etf_codes.data).map (fun cs => pyStrip (String.mk cs)),
        (∀ e, fetch c = .error e →
          (failRowFor c).data <:+: (compare_etfs fetch etf_codes ctype).data) ∧
        (∀ df, fetch c = .ok df →
          (dataRowFor c df).data <:+: (compare_etfs fetch etf_codes ctype).data)) := by
  constructor
  · intro h1
    constructor
    · simp only [compare_etfs, if_pos h1]
    · intro fetch'
      simp only [compare_etfs, if_pos h1]
  · intro h2
    have hlt : ¬ (((pySplit ',' etf_codes.data).map
        (fun cs => pyStrip (String.mk cs))).length < 2) := by omega
    have hres : compare_etfs fetch etf_codes ctype =
        ((buildETFDict fetch
            ((pySplit ',' etf_codes.data).map (fun cs => pyStrip (String.mk cs)))).foldl
          (fun rep p => rep ++ compareRowFor p.1 p.2) compareHeader) ++ compareFooter := by
      simp only [compare_etfs, if_neg hlt]
    have hp1 : "# ETF比较分析".data <+: compareHeader.data := by
      unfold compareHeader
      exact data_isPrefix_append (data_isPrefix_append (data_isPrefix_append
        (data_isPrefix_append (by decide) _) _) _) _
    constructor
    · rw [hres, data_append]
      refine List.IsPrefix.trans ?_ (List.prefix_append _ _)
      exact List.IsPrefix.trans hp1
        (foldl_append_acc_isPre (fun (p : String × Option DataFrame) => compareRowFor p.1 p.2) _ compareHeader)
    · intro c hc
      have hmem := buildETFDict_lookup fetch
        ((pySplit ',' etf_codes.data).map (fun cs => pyStrip (String.mk cs))) c hc
      constructor
      · intro e he
        have hrow : compareRowFor c (fetchResult fetch c) = failRowFor c := by
          simp only [fetchResult, he, compareRowFor]
        rw [hres]
        refine isInfix_data_append_left ?_ compareFooter
        have hinf := foldl_append_mem_infix (fun p => compareRowFor p.1 p.2)
          hmem compareHeader
        simpa only [hrow] using hinf
      · intro df hdf
        have hrow : compareRowFor c (fetchResult fetch c) = dataRowFor c df := by
          simp only [fetchResult, hdf, compareRowFor, hcontract c df hdf,
            Bool.false_eq_true, if_false]
        rw [hres]
        refine isInfix_data_append_left ?_ compareFooter
        have hinf := foldl_append_mem_infix (fun p => compareRowFor p.1 p.2)
          hmem compareHeader
        simpa only [hrow] using hinf

/-- A fetch oracle failing on 159919 and succeeding elsewhere. -/
def fetchDemo : String → Except PyError DataFrame := fun c =>
  if c = "159919" then .error (.noDataFound "未找到ETF代码 159919 的基本信息")
  else .ok ⟨["名称"], [["沪深300ETF"]]⟩

theorem compare_etfs_partial_failure_witness :
    (failRowFor "159919").data <:+:
      (compare_etfs fetchDemo "159919,510300" "performance").data ∧
    (dataRowFor "510300" ⟨["名称"], [["沪深300ETF"]]⟩).data <:+:
      (compare_etfs fetchDemo "159919,510300" "performance").data := by
  have hcontract : ∀ c df, fetchDemo c = .ok df → df.emptyB = false := by
    intro c df h
    unfold fetchDemo at h
    split at h
    · exact absurd h (by simp)
    · injection h with h2
      rw [← h2]
      rfl
  have h := (compare_etfs_partial_failure fetchDemo "159919,510300" "performance"
    hcontract).2 (by decide)
  exact ⟨(h.2 "159919" (by decide)).1 (.noDataFound "未找到ETF代码 159919 的基本信息")
      (by rfl),
    (h.2 "510300" (by decide)).2 ⟨["名称"], [["沪深300ETF"]]⟩ (by rfl)⟩

end AShareMCP

namespace AShareMCP

theorem strLe_of_not_lt {a b : String} (h : strLt a b = false) : strLe b a = true := by
  have hnot : ¬ a < b := by
    intro hc
    rw [strLt_iff.mpr hc] at h
    exact absurd h (by simp)
  exact strLe_iff.mpr (le_of_not_lt hnot)

/-- An ISO rendering is never the empty string. -/
theorem iso_ne_empty (d : Date) : d.iso ≠ "" := by
  intro h
  have := congrArg String.data h
  simp [Date.iso, pad4, pad2] at this

/-- A trading-calendar source that always raises. -/
def gRaise : TradeDatesSource := fun _ _ => .error (.other "boom")

/-- C4 counterexample: when the underlying calendar query raises,
`is_trading_day` does not return `"No"` and `previous_trading_day` /
`next_trading_day` do not return their input date — all three return an
`"Error: ..."` string instead. -/
theorem calendar_exception_not_fallback :
    is_trading_day gRaise "2025-01-03" ≠ "No" ∧
    previous_trading_day gRaise "2025-01-10" ≠ "2025-01-10" ∧
    next_trading_day gRaise "2025-01-10" ≠ "2025-01-10" := by
  refine ⟨?_, ?_, ?_⟩ <;> decide

/-- C4 amended: whenever the underlying trading-calendar query raises,
`is_trading_day`, `previous_trading_day` and `next_trading_day` each return
the string `"Error: "` followed by the exception's message (rather than
`"No"` / the unchanged input date); no exception escapes — each operation
still returns a string. -/
theorem calendar_exception_yields_error_string (e : PyError) (d : Date)
    (hd : d.Valid) :
    is_trading_day (fun _ _ => .error e) d.iso = "Error: " ++ e.msg ∧
    previous_trading_day (fun _ _ => .error e) d.iso = "Error: " ++ e.msg ∧
    next_trading_day (fun _ _ => .error e) d.iso = "Error: " ++ e.msg := by
  refine ⟨rfl, ?_, ?_⟩
  · simp only [previous_trading_day, parseIso_iso d hd]
  · simp only [next_trading_day, parseIso_iso d hd]

theorem calendar_exception_yields_error_string_witness :
    is_trading_day (fun _ _ => .error (.other "boom")) (Date.iso ⟨2025, 1, 10⟩) =
      "Error: boom" ∧
    previous_trading_day (fun _ _ => .error (.other "boom"))
      (Date.iso ⟨2025, 1, 10⟩) = "Error: boom" ∧
    next_trading_day (fun _ _ => .error (.other "boom"))
      (Date.iso ⟨2025, 1, 10⟩) = "Error: boom" :=
  calendar_exception_yields_error_string (.other "boom") ⟨2025, 1, 10⟩ (by decide)

end AShareMCP

namespace AShareMCP

theorem bool_eq_false_of_ne_true {b : Bool} (h : ¬ b = true) : b = false := by
  cases b
  · rfl
  · exact absurd rfl h

theorem latestStep_none (today x : String) :
    latestStep today none x = if strLe x today then some x else none := rfl

theorem latestStep_some (today a x : String) :
    latestStep today (some a) x =
      if strLe x today && strLt a x then some x else some a := rfl

theorem foldl_latestStep_none {today : String} :
    ∀ (l : List String) (acc : Option String),
      l.foldl (latestStep today) acc = none →
      acc = none ∧ ∀ x ∈ l, strLe x today = false := by
  intro l
  induction l with
  | nil =>
    intro acc h
    exact ⟨h, by simp⟩
  | cons x xs ih =>
    intro acc h
    rw [List.foldl_cons] at h
    obtain ⟨hstep, hxs⟩ := ih _ h
    cases acc with
    | none =>
      rw [latestStep_none] at hstep
      by_cases hle : strLe x today = true
      · rw [if_pos hle] at hstep
        exact absurd hstep (by simp)
      · refine ⟨rfl, ?_⟩
        intro y hy
        rcases List.mem_cons.mp hy with rfl | hmem
        · exact bool_eq_false_of_ne_true hle
        · exact hxs y hmem
    | some a =>
      rw [latestStep_some] at hstep
      by_cases hc : (strLe x today && strLt a x) = true
      · rw [if_pos hc] at hstep
        exact absurd hstep (by simp)
      · rw [if_neg hc] at hstep
        exact absurd hstep (by simp)

theorem foldl_latestStep_some {today : String} :
    ∀ (l : List String) (acc : Option String) (m : String),
      l.foldl (latestStep today) acc = some m →
      (m ∈ l ∧ strLe m today = true) ∨ acc = some m := by
  intro l
  induction l with
  | nil =>
    intro acc m h
    exact Or.inr h
  | cons x xs ih =>
    intro acc m h
    rw [List.foldl_cons] at h
    rcases ih _ m h with ⟨hm, hle⟩ | hacc
    · exact Or.inl ⟨List.mem_cons_of_mem x hm, hle⟩
    · cases acc with
      | none =>
        rw [latestStep_none] at hacc
        by_cases hle : strLe x today = true
        · rw [if_pos hle] at hacc
          have hmx : x = m := by simpa using hacc
          subst hmx
          exact Or.inl ⟨List.mem_cons_self _ _, hle⟩
        · rw [if_neg hle] at hacc
          exact absurd hacc (by simp)
      | some a =>
        rw [latestStep_some] at hacc
        by_cases hc : (strLe x today && strLt a x) = true
        · rw [if_pos hc] at hacc
          have hmx : x = m := by simpa using hacc
          subst hmx
          have hparts : strLe x today = true ∧ strLt a x = true := by
            simpa [Bool.and_eq_true] using hc
          exact Or.inl ⟨List.mem_cons_self _ _, hparts.1⟩
        · rw [if_neg hc] at hacc
          exact Or.inr hacc

theorem foldl_latestStep_ub {today : String} :
    ∀ (l : List String) (acc : Option String) (m : String),
      l.foldl (latestStep today) acc = some m →
      (∀ x ∈ l, strLe x today = true → strLe x m = true) ∧
      (∀ a, acc = some a → strLe a m = true) := by
  intro l
  induction l with
  | nil =>
    intro acc m h
    refine ⟨by simp, ?_⟩
    intro a ha
    rw [ha] at h
    have : a = m := by simpa using h
    rw [this]
    exact strLe_refl m
  | cons x xs ih =>
    intro acc m h
    rw [List.foldl_cons] at h
    obtain ⟨ih1, ih2⟩ := ih _ m h
    have hx : strLe x today = true → strLe x m = true := by
      intro hxt
      cases acc with
      | none =>
        exact ih2 x (by rw [latestStep_none, if_pos hxt])
      | some a =>
        by_cases hc : (strLe x today && strLt a x) = true
        · exact ih2 x (by rw [latestStep_some, if_pos hc])
        · have hax : strLt a x = false := by
            cases hlt : strLt a x
            · rfl
            · exact absurd (show (strLe x today && strLt a x) = true by
                rw [hxt, hlt]; rfl) hc
          have hxa : strLe x a = true := strLe_of_not_lt hax
          have ham : strLe a m = true := ih2 a (by rw [latestStep_some, if_neg hc])
          exact strLe_trans hxa ham
    refine ⟨?_, ?_⟩
    · intro y hy hyt
      rcases List.mem_cons.mp hy with rfl | hmem
      · exact hx hyt
      · exact ih1 y hmem hyt
    · intro a ha
      subst ha
      by_cases hc : (strLe x today && strLt a x) = true
      · have hxm : strLe x m = true := ih2 x (by rw [latestStep_some, if_pos hc])
        have hparts : strLe x today = true ∧ strLt a x = true := by
          simpa [Bool.and_eq_true] using hc
        exact strLe_trans (strLe_of_strLt hparts.2) hxm
      · exact ih2 a (by rw [latestStep_some, if_neg hc])

end AShareMCP

namespace AShareMCP

/-- C5: `get_latest_trading_date` consults the calendar only for the window
from the first of the current month through day 28; the result is always a
string ≤ today (in the string order the source compares with) and never
empty; when the provider returns a frame of `TradeCalendarEntry` shape, the
result is the maximum entry flagged `'1'` whose date is ≤ today, and today
itself when no such entry exists or the query raised (or returned `None`);
when the frame's date cells are ISO dates, the result is an ISO date. -/
theorem get_latest_trading_date_spec (g : TradeDatesSource) (now : Date)
    (hnow : now.Valid) :
    (∀ g' : TradeDatesSource,
      g' (Date.mk now.year now.month 1).iso (Date.mk now.year now.month 28).iso =
        g (Date.mk now.year now.month 1).iso (Date.mk now.year now.month 28).iso →
      get_latest_trading_date g' now = get_latest_trading_date g now) ∧
    strLe (get_latest_trading_date g now) now.iso = true ∧
    get_latest_trading_date g now ≠ "" ∧
    (∀ df, g (Date.mk now.year now.month 1).iso (Date.mk now.year now.month 28).iso =
        .ok (some df) →
      df.cols = ["calendar_date", "is_trading_day"] →
      ((((df.rows.filter (fun r => df.cellv "is_trading_day" r == "1")).map
          (df.cellv "calendar_date")).filter (fun s => strLe s now.iso)) ≠ [] →
        "" ∉ (((df.rows.filter (fun r => df.cellv "is_trading_day" r == "1")).map
          (df.cellv "calendar_date")).filter (fun s => strLe s now.iso)) →
        get_latest_trading_date g now ∈
          (((df.rows.filter (fun r => df.cellv "is_trading_day" r == "1")).map
            (df.cellv "calendar_date")).filter (fun s => strLe s now.iso)) ∧
        ∀ x ∈ (((df.rows.filter (fun r => df.cellv "is_trading_day" r == "1")).map
            (df.cellv "calendar_date")).filter (fun s => strLe s now.iso)),
          strLe x (get_latest_trading_date g now) = true) ∧
      ((((df.rows.filter (fun r => df.cellv "is_trading_day" r == "1")).map
          (df.cellv "calendar_date")).filter (fun s => strLe s now.iso)) = [] →
        get_latest_trading_date g now = now.iso)) ∧
    (((∃ e, g (Date.mk now.year now.month 1).iso
        (Date.mk now.year now.month 28).iso = .error e) ∨
      g (Date.mk now.year now.month 1).iso (Date.mk now.year now.month 28).iso =
        .ok none) →
      get_latest_trading_date g now = now.iso) ∧
    (∀ df, g (Date.mk now.year now.month 1).iso (Date.mk now.year now.month 28).iso =
        .ok (some df) →
      df.cols = ["calendar_date", "is_trading_day"] →
      (∀ r ∈ df.rows, (parseIso (df.cellv "calendar_date" r)).isSome = true) →
      (parseIso (get_latest_trading_date g now)).isSome = true) := by
  have hchar : get_latest_trading_date g now = now.iso ∨
      ∃ df m,
        g (Date.mk now.year now.month 1).iso (Date.mk now.year now.month 28).iso =
          .ok (some df) ∧
        ((df.rows.filter (fun r => df.cellv "is_trading_day" r == "1")).map
          (df.cellv "calendar_date")).foldl (latestStep now.iso) none = some m ∧
        m ≠ "" ∧ get_latest_trading_date g now = m := by
    cases hg : g (Date.mk now.year now.month 1).iso
        (Date.mk now.year now.month 28).iso with
    | error e =>
      left
      simp only [get_latest_trading_date, hg]
    | ok odf =>
      cases odf with
      | none =>
        left
        simp only [get_latest_trading_date, hg]
      | some df =>
        by_cases hcols : "is_trading_day" ∈ df.cols ∧ "calendar_date" ∈ df.cols
        · cases hfold : ((df.rows.filter
              (fun r => df.cellv "is_trading_day" r == "1")).map
                (df.cellv "calendar_date")).foldl (latestStep now.iso) none with
          | none =>
            left
            simp only [get_latest_trading_date, hg, if_pos hcols, hfold]
          | some m =>
            by_cases hm : m = ""
            · left
              simp only [get_latest_trading_date, hg, if_pos hcols, hfold,
                if_neg (show ¬ (m ≠ "") from fun hc => hc hm)]
            · right
              exact ⟨df, m, rfl, hfold, hm,
                by simp only [get_latest_trading_date, hg, if_pos hcols, hfold,
                  if_pos hm]⟩
        · left
          simp only [get_latest_trading_date, hg, if_neg hcols]
  refine ⟨?_, ?_, ?_, ?_, ?_, ?_⟩
  · intro g' hg'
    unfold get_latest_trading_date
    rw [hg']
  · rcases hchar with h | ⟨df, m, hg, hfold, hm, hres⟩
    · rw [h]
      exact strLe_refl _
    · rw [hres]
      rcases foldl_latestStep_some _ _ _ hfold with ⟨_, hle⟩ | habs
    
      · exact hle
      · exact absurd habs (by simp)
  · rcases hchar with h | ⟨df, m, hg, hfold, hm, hres⟩
    · rw [h]
      exact iso_ne_empty now
    · rw [hres]
      exact hm
  · intro df hg hcols
    have hcolmem : "is_trading_day" ∈ df.cols ∧ "calendar_date" ∈ df.cols := by
      rw [hcols]
      exact ⟨by simp, by simp⟩
    constructor
    · intro hSne hSnotin
      cases hfold : ((df.rows.filter
          (fun r => df.cellv "is_trading_day" r == "1")).map
            (df.cellv "calendar_date")).foldl (latestStep now.iso) none with
      | none =>
        exfalso
        obtain ⟨y, hy⟩ := List.exists_mem_of_ne_nil _ hSne
        obtain ⟨hyV, hyle⟩ := List.mem_filter.mp hy
        have := (foldl_latestStep_none _ _ hfold).2 y hyV
        rw [this] at hyle
        exact absurd hyle (by simp)
      | some m =>
        rcases foldl_latestStep_some _ _ _ hfold with ⟨hmV, hmle⟩ | habs
        · have hmS : m ∈ (((df.rows.filter
              (fun r => df.cellv "is_trading_day" r == "1")).map
                (df.cellv "calendar_date")).filter (fun s => strLe s now.iso)) :=
            List.mem_filter.mpr ⟨hmV, by simpa using hmle⟩
          have hm_ne : m ≠ "" := by
            intro h
            rw [h] at hmS
            exact hSnotin hmS
          have hres : get_latest_trading_date g now = m := by
            simp only [get_latest_trading_date, hg, if_pos hcolmem, hfold,
              if_pos hm_ne]
          rw [hres]
          refine ⟨hmS, ?_⟩
          intro x hx
          obtain ⟨hxV, hxle⟩ := List.mem_filter.mp hx
          exact (foldl_latestStep_ub _ _ _ hfold).1 x hxV (by simpa using hxle)
        · exact absurd habs (by simp)
    · intro hSempty
      cases hfold : ((df.rows.filter
          (fun r => df.cellv "is_trading_day" r == "1")).map
            (df.cellv "calendar_date")).foldl (latestStep now.iso) none with
      | none =>
        simp only [get_latest_trading_date, hg, if_pos hcolmem, hfold]
      | some m =>
        exfalso
        rcases foldl_latestStep_some _ _ _ hfold with ⟨hmV, hmle⟩ | habs
        · have hmS : m ∈ (((df.rows.filter
              (fun r => df.cellv "is_trading_day" r == "1")).map
                (df.cellv "calendar_date")).filter (fun s => strLe s now.iso)) :=
            List.mem_filter.mpr ⟨hmV, by simpa using hmle⟩
          rw [hSempty] at hmS
          cases hmS
        · exact absurd habs (by simp)
  · rintro (⟨e, he⟩ | hnone)
    · simp only [get_latest_trading_date, he]
    · simp only [get_latest_trading_date, hnone]
  · intro df hg hcols hcells
    rcases hchar with h | ⟨df', m, hg', hfold, hm, hres⟩
    · rw [h, parseIso_iso now hnow]
      rfl
    · rw [hg] at hg'
      have hdf : df' = df := by
        simpa using hg'.symm
      subst hdf
      rw [hres]
      rcases foldl_latestStep_some _ _ _ hfold with ⟨hmV, _⟩ | habs
      · obtain ⟨r, hrF, hrm⟩ := List.mem_map.mp hmV
        obtain ⟨hrR, _⟩ := List.mem_filter.mp hrF
        rw [← hrm]
        exact hcells r hrR
      · exact absurd habs (by simp)

/-- A provider returning a small January-2025 calendar. -/
def gJan2025 : TradeDatesSource := fun _ _ =>
  .ok (some ⟨["calendar_date", "is_trading_day"],
    [["2025-01-08", "1"], ["2025-01-09", "1"], ["2025-01-10", "0"],
     ["2025-01-15", "1"]]⟩)

theorem get_latest_trading_date_spec_witness :
    strLe (get_latest_trading_date gJan2025 ⟨2025, 1, 10⟩)
      (Date.iso ⟨2025, 1, 10⟩) = true ∧
    get_latest_trading_date gJan2025 ⟨2025, 1, 10⟩ ≠ "" :=
  ⟨(get_latest_trading_date_spec gJan2025 ⟨2025, 1, 10⟩ (by decide)).2.1,
   (get_latest_trading_date_spec gJan2025 ⟨2025, 1, 10⟩ (by decide)).2.2.1⟩

end AShareMCP

namespace AShareMCP

theorem mem_of_getLastQ {α : Type} {l : List α} {a : α}
    (h : l.getLast? = some a) : a ∈ l := by
  obtain ⟨hne, heq⟩ := List.mem_getLast?_eq_getLast (show a ∈ l.getLast? from h)
  rw [heq]
  exact List.getLast_mem hne

/-- In a sorted list, every element relates to the last one. -/
theorem sorted_getLastQ_ub {α : Type} {R : α → α → Prop} [IsTrans α R] :
    ∀ {l : List α}, l.Sorted R → ∀ {r : α}, l.getLast? = some r →
      ∀ y ∈ l, y = r ∨ R y r := by
  intro l
  induction l with
  | nil =>
    intro _ r hr
    simp at hr
  | cons a t ih =>
    intro hs r hr y hy
    cases t with
    | nil =>
      have har : a = r := by simpa using hr
      have hya : y = a := by simpa using hy
      exact Or.inl (hya.trans har)
    | cons b t' =>
      rw [List.getLast?_cons_cons] at hr
      rcases List.mem_cons.mp hy with rfl | hyt
      · exact Or.inr (List.rel_of_sorted_cons hs r (mem_of_getLastQ hr))
      · exact ih hs.of_cons hr y hyt

/-- In a sorted list, the head relates to every element. -/
theorem sorted_headQ_lb {α : Type} {R : α → α → Prop} {l : List α}
    (hs : l.Sorted R) {r : α} (hr : l.head? = some r) :
    ∀ y ∈ l, y = r ∨ R r y := by
  intro y hy
  cases l with
  | nil => cases hy
  | cons a t =>
    have har : a = r := by simpa using hr
    subst har
    rcases List.mem_cons.mp hy with rfl | hyt
    · exact Or.inl rfl
    · exact Or.inr (List.rel_of_sorted_cons hs y hyt)

/-- C6: against the dataframe the provider returned for the 30-day lookback
(resp. lookahead) window, `previous_trading_day` (resp. `next_trading_day`)
returns the latest trading-flagged entry strictly before (resp. the
earliest strictly after) the input date, and the input date unchanged when
no such entry exists. -/
theorem prev_next_trading_day_spec (g : TradeDatesSource) (d : Date)
    (hd : d.Valid) (df₁ df₂ : DataFrame)
    (h₁ : g ((d.subDays 30).iso) d.iso = .ok (some df₁))
    (hc₁ : df₁.cols = ["calendar_date", "is_trading_day"])
    (h₂ : g d.iso ((d.addDays 30).iso) = .ok (some df₂))
    (hc₂ : df₂.cols = ["calendar_date", "is_trading_day"]) :
    (let P := (df₁.rows.filter (fun r =>
        df₁.cellv "is_trading_day" r == "1" &&
        strLt (df₁.cellv "calendar_date" r) d.iso)).map (df₁.cellv "calendar_date")
     (P ≠ [] →
        previous_trading_day g d.iso ∈ P ∧
        strLt (previous_trading_day g d.iso) d.iso = true ∧
        ∀ x ∈ P, strLe x (previous_trading_day g d.iso) = true) ∧
     (P = [] → previous_trading_day g d.iso = d.iso)) ∧
    (let N := (df₂.rows.filter (fun r =>
        df₂.cellv "is_trading_day" r == "1" &&
        strLt d.iso (df₂.cellv "calendar_date" r))).map (df₂.cellv "calendar_date")
     (N ≠ [] →
        next_trading_day g d.iso ∈ N ∧
        strLt d.iso (next_trading_day g d.iso) = true ∧
        ∀ x ∈ N, strLe (next_trading_day g d.iso) x = true) ∧
     (N = [] → next_trading_day g d.iso = d.iso)) := by
  have hm11 : "is_trading_day" ∈ df₁.cols := by rw [hc₁]; simp
  have hm12 : "calendar_date" ∈ df₁.cols := by rw [hc₁]; simp
  have hm21 : "is_trading_day" ∈ df₂.cols := by rw [hc₂]; simp
  have hm22 : "calendar_date" ∈ df₂.cols := by rw [hc₂]; simp
  constructor
  · intro P
    by_cases hE : df₁.emptyB = true
    · have hrows : df₁.rows = [] := by
        unfold DataFrame.emptyB at hE
        rw [hc₁] at hE
        cases hR : df₁.rows with
        | nil => rfl
        | cons a t => rw [hR] at hE; simp at hE
      have hPnil : P = [] := by
        show (df₁.rows.filter (fun r =>
          df₁.cellv "is_trading_day" r == "1" &&
          strLt (df₁.cellv "calendar_date" r) d.iso)).map
            (df₁.cellv "calendar_date") = []
        rw [hrows]
        rfl
      have hres : previous_trading_day g d.iso = d.iso := by
        simp only [previous_trading_day, parseIso_iso d hd, h₁, if_pos hE]
      exact ⟨fun hne => absurd hPnil hne, fun _ => hres⟩
    · have hres : previous_trading_day g d.iso =
          (match (List.insertionSort (rowLeKey (df₁.cellv "calendar_date"))
              (df₁.rows.filter (fun r =>
                df₁.cellv "is_trading_day" r == "1" &&
                strLt (df₁.cellv "calendar_date" r) d.iso))).getLast? with
           | none => d.iso
           | some r => df₁.cellv "calendar_date" r) := by
        simp only [previous_trading_day, parseIso_iso d hd, h₁, if_neg hE,
          if_pos hm11, if_pos hm12]
      have hperm := List.perm_insertionSort (rowLeKey (df₁.cellv "calendar_date"))
        (df₁.rows.filter (fun r =>
          df₁.cellv "is_trading_day" r == "1" &&
          strLt (df₁.cellv "calendar_date" r) d.iso))
      cases hlast : (List.insertionSort (rowLeKey (df₁.cellv "calendar_date"))
          (df₁.rows.filter (fun r =>
            df₁.cellv "is_trading_day" r == "1" &&
            strLt (df₁.cellv "calendar_date" r) d.iso))).getLast? with
      | none =>
        have hsnil := List.getLast?_eq_none_iff.mp hlast
        rw [hsnil] at hperm
        have hFnil := hperm.symm.eq_nil
        have hPnil : P = [] := by
          show (df₁.rows.filter (fun r =>
            df₁.cellv "is_trading_day" r == "1" &&
            strLt (df₁.cellv "calendar_date" r) d.iso)).map
              (df₁.cellv "calendar_date") = []
          rw [hFnil]
          rfl
        have hres' : previous_trading_day g d.iso = d.iso := by
          rw [hres, hlast]
        exact ⟨fun hne => absurd hPnil hne, fun _ => hres'⟩
      | some r =>
        have hrS := mem_of_getLastQ hlast
        have hrF := hperm.mem_iff.mp hrS
        have hres' : previous_trading_day g d.iso =
            df₁.cellv "calendar_date" r := by
          rw [hres, hlast]
        have hPmem : df₁.cellv "calendar_date" r ∈ P :=
          List.mem_map_of_mem _ hrF
        have hpred := (List.mem_filter.mp hrF).2
        have hpred2 : strLt (df₁.cellv "calendar_date" r) d.iso = true := by
          simp only [Bool.and_eq_true] at hpred
          exact hpred.2
        refine ⟨fun _ => ⟨by rw [hres']; exact hPmem,
          by rw [hres']; exact hpred2, ?_⟩, fun hPnil => ?_⟩
        · intro x hx
          obtain ⟨r', hr'F, hr'x⟩ := List.mem_map.mp hx
          have hr'S := hperm.mem_iff.mpr hr'F
          rcases sorted_getLastQ_ub
              (List.sorted_insertionSort (rowLeKey (df₁.cellv "calendar_date")) _)
              hlast r' hr'S with heq | hrel
          · rw [← hr'x, heq, hres']
            exact strLe_refl _
          · rw [← hr'x, hres']
            exact hrel
        · exfalso
          rw [hPnil] at hPmem
          cases hPmem
  · intro N
    by_cases hE : df₂.emptyB = true
    · have hrows : df₂.rows = [] := by
        unfold DataFrame.emptyB at hE
        rw [hc₂] at hE
        cases hR : df₂.rows with
        | nil => rfl
        | cons a t => rw [hR] at hE; simp at hE
      have hNnil : N = [] := by
        show (df₂.rows.filter (fun r =>
          df₂.cellv "is_trading_day" r == "1" &&
          strLt d.iso (df₂.cellv "calendar_date" r))).map
            (df₂.cellv "calendar_date") = []
        rw [hrows]
        rfl
      have hres : next_trading_day g d.iso = d.iso := by
        simp only [next_trading_day, parseIso_iso d hd, h₂, if_pos hE]
      exact ⟨fun hne => absurd hNnil hne, fun _ => hres⟩
    · have hres : next_trading_day g d.iso =
          (match (List.insertionSort (rowLeKey (df₂.cellv "calendar_date"))
              (df₂.rows.filter (fun r =>
                df₂.cellv "is_trading_day" r == "1" &&
                strLt d.iso (df₂.cellv "calendar_date" r)))).head? with
           | none => d.iso
           | some r => df₂.cellv "calendar_date" r) := by
        simp only [next_trading_day, parseIso_iso d hd, h₂, if_neg hE,
          if_pos hm21, if_pos hm22]
      have hperm := List.perm_insertionSort (rowLeKey (df₂.cellv "calendar_date"))
        (df₂.rows.filter (fun r =>
          df₂.cellv "is_trading_day" r == "1" &&
          strLt d.iso (df₂.cellv "calendar_date" r)))
      cases hhead : (List.insertionSort (rowLeKey (df₂.cellv "calendar_date"))
          (df₂.rows.filter (fun r =>
            df₂.cellv "is_trading_day" r == "1" &&
            strLt d.iso (df₂.cellv "calendar_date" r)))).head? with
      | none =>
        have hsnil := List.head?_eq_none_iff.mp hhead
        rw [hsnil] at hperm
        have hFnil := hperm.symm.eq_nil
        have hNnil : N = [] := by
          show (df₂.rows.filter (fun r =>
            df₂.cellv "is_trading_day" r == "1" &&
            strLt d.iso (df₂.cellv "calendar_date" r))).map
              (df₂.cellv "calendar_date") = []
          rw [hFnil]
          rfl
        have hres' : next_trading_day g d.iso = d.iso := by
          rw [hres, hhead]
        exact ⟨fun hne => absurd hNnil hne, fun _ => hres'⟩
      | some r =>
        have hrS := List.mem_of_mem_head? (show r ∈ _ from hhead)
        have hrF := hperm.mem_iff.mp hrS
        have hres' : next_trading_day g d.iso = df₂.cellv "calendar_date" r := by
          rw [hres, hhead]
        have hNmem : df₂.cellv "calendar_date" r ∈ N :=
          List.mem_map_of_mem _ hrF
        have hpred := (List.mem_filter.mp hrF).2
        have hpred2 : strLt d.iso (df₂.cellv "calendar_date" r) = true := by
          simp only [Bool.and_eq_true] at hpred
          exact hpred.2
        refine ⟨fun _ => ⟨by rw [hres']; exact hNmem,
          by rw [hres']; exact hpred2, ?_⟩, fun hNnil => ?_⟩
        · intro x hx
          obtain ⟨r', hr'F, hr'x⟩ := List.mem_map.mp hx
          have hr'S := hperm.mem_iff.mpr hr'F
          rcases sorted_headQ_lb
              (List.sorted_insertionSort (rowLeKey (df₂.cellv "calendar_date")) _)
              hhead r' hr'S with heq | hrel
          · rw [← hr'x, heq, hres']
            exact strLe_refl _
          · rw [← hr'x, hres']
            exact hrel
        · exfalso
          rw [hNnil] at hNmem
          cases hNmem

theorem prev_next_trading_day_spec_witness :
    strLt (previous_trading_day gJan2025 (Date.iso ⟨2025, 1, 10⟩))
      (Date.iso ⟨2025, 1, 10⟩) = true ∧
    strLt (Date.iso ⟨2025, 1, 10⟩)
      (next_trading_day gJan2025 (Date.iso ⟨2025, 1, 10⟩)) = true := by
  have h := prev_next_trading_day_spec gJan2025 ⟨2025, 1, 10⟩ (by decide)
    ⟨["calendar_date", "is_trading_day"],
      [["2025-01-08", "1"], ["2025-01-09", "1"], ["2025-01-10", "0"],
       ["2025-01-15", "1"]]⟩
    ⟨["calendar_date", "is_trading_day"],
      [["2025-01-08", "1"], ["2025-01-09", "1"], ["2025-01-10", "0"],
       ["2025-01-15", "1"]]⟩
    (by rfl) (by rfl) (by rfl) (by rfl)
  exact ⟨(h.1.1 (by decide)).2.1, (h.2.1 (by decide)).2.1⟩

end AShareMCP
